import Mathlib

/-!
# Verification of the secretstore session/RPC client library

Shallow embedding of the typed client modules of the repository:
`lib/utils.ts` (string transforms), `lib/client/error.ts` (session error
type), `lib/client/session.ts` (HTTP session client) and `lib/client/rpc.ts`
(JSON-RPC client).  Strings are modelled as Lean `String`; values that may
be `undefined` at the JavaScript level are modelled as `Option`; a function
that can `throw` returns `Except ThrownError α`.  Each client operation is
embedded as the pure function computing the wire request it issues (an
`Except.error` result means the operation threw before the transport was
invoked, i.e. no request was sent).
-/

namespace SecretStore

/-- `true` iff the character list starts with the two characters `0x`,
the test performed by `val.startsWith('0x')` in `lib/utils.ts`. -/
def startsWith0x : List Char → Bool
  | c0 :: c1 :: _ => c0 = '0' && c1 = 'x'
  | _ => false

/-- Core of `remove0x` on the character list of the string: drop a leading
`0x` if present (`val.slice(2)`), otherwise return the list unchanged. -/
def remove0xAux (l : List Char) : List Char :=
  if startsWith0x l then l.drop 2 else l

/-- `remove0x` from `lib/utils.ts`:
`if (!val) return ''; return val.startsWith('0x') ? val.slice(2) : val;`.
For an actual string argument the falsiness guard only fires on `""`, for
which the unguarded branch returns `""` as well, so the guard is absorbed. -/
def remove0x (val : String) : String := ⟨remove0xAux val.data⟩

/-- `remove0x` as called on a field that may be `undefined` at runtime
(JavaScript: `!undefined` is true, so `remove0x(undefined) === ''`). -/
def remove0xOpt : Option String → String
  | none => ""
  | some s => remove0x s

/-- Core of `ensure0x`: prepend `0x` unless already present. -/
def ensure0xAux (l : List Char) : List Char :=
  if startsWith0x l then l else '0' :: 'x' :: l

/-- `ensure0x` from `lib/utils.ts`:
`return str.startsWith('0x') ? str : `0x${str}`;`. -/
def ensure0x (str : String) : String := ⟨ensure0xAux str.data⟩

/-- `true` on the JavaScript line-terminator characters, which the regexp
atom `.` (without the `s` flag) does not match: LF, CR, LINE SEPARATOR
(U+2028) and PARAGRAPH SEPARATOR (U+2029). -/
def isJsLineTerminator (c : Char) : Bool :=
  c = '\n' || c = '\r' || c = Char.ofNat 8232 || c = Char.ofNat 8233

/-- Matcher for the tail of the regexp `/^"(.*)"$/` after its leading quote:
`dqInner l = some m` iff `l = m ++ ['"']` where every character of `m` is
matched by `.` (i.e. is not a line terminator).  Because the pattern is
anchored at both ends, the body is everything strictly between the first
and the last character, so the greedy `.*` is forced and quotes may occur
inside the body. -/
def dqInner : List Char → Option (List Char)
  | [] => none
  | [c] => if c = '"' then some [] else none
  | c :: c1 :: rest =>
    if isJsLineTerminator c then none
    else (dqInner (c1 :: rest)).map fun m => c :: m

/-- Full matcher for `/^"(.*)"$/`: the string must start with `"`, have at
least two characters, and end with `"`; the captured group is returned. -/
def dqBody (l : List Char) : Option (List Char) :=
  match l with
  | c0 :: c1 :: rest => if c0 = '"' then dqInner (c1 :: rest) else none
  | _ => none

/-- `removeEnclosingDQuotes` from `lib/utils.ts`:
`return str.replace(/^"(.*)"$/, '$1');` — if the whole string matches the
anchored pattern, replace it by the captured body, otherwise (no match)
`replace` returns the string unchanged. -/
def removeEnclosingDQuotes (str : String) : String :=
  match dqBody str.data with
  | some body => ⟨body⟩
  | none => str

deriving instance DecidableEq for Except

/-- Axios request configuration, as far as the library inspects it.  The
session client stores one (`requestConfig`) and the failing response carries
the one of the request that produced it (`response.config`). -/
structure AxiosRequestConfig where
  url : String
  method : String
deriving DecidableEq, Repr

/-- The part of an axios error response read by `_send` in
`lib/client/session.ts`: `status`, `statusText`, `data` (body) and
`config`. -/
structure AxiosResponse where
  status : Nat
  statusText : String
  data : String
  config : AxiosRequestConfig
deriving DecidableEq, Repr

/-- The errors that can be thrown or caught in the embedded code.
`jsError` is a plain `new Error(msg)` (also used for the construction-time
configuration errors and the pre-network validation errors, which the
source throws as plain `Error`s); `axiosError` is an error with
`isAxiosError === true` carrying an optional HTTP response (a connection
failure carries none); `sessionError` is `SecretStoreSessionError` from
`lib/client/error.ts` with its `message` and `meta` fields; `typeError` is
the runtime `TypeError` raised by reading a property of `undefined`. -/
inductive ThrownError where
  | jsError (msg : String)
  | axiosError (response : Option AxiosResponse)
  | sessionError (message : String) (meta : AxiosRequestConfig)
  | typeError (msg : String)
deriving DecidableEq, Repr

/-- The `isAxiosError` flag tested by `_send`. -/
def ThrownError.isAxiosError : ThrownError → Bool
  | .axiosError _ => true
  | _ => false

/-- The `response` field destructured from the caught error by `_send`
(`const { response } = error as AxiosError`); `undefined` on anything that
is not an axios error. -/
def ThrownError.response : ThrownError → Option AxiosResponse
  | .axiosError r => r
  | _ => none

/-- The `catch` block of `SecretStoreSessionClient._send`
(`lib/client/session.ts`, lines 54-63): an error with `isAxiosError` set is
rewrapped as a `SecretStoreSessionError` whose message is
`` `${response.statusText} (${response.status}): ${removeEnclosingDQuotes(response.data)}` ``
and whose `meta` is `response.config`; any other error is rethrown as-is.
When `isAxiosError` is set but `response` is `undefined` (e.g. a connection
failure), the template-literal read `response.statusText` itself throws a
`TypeError`, which is what the caller then receives. -/
def handleSendError (e : ThrownError) : ThrownError :=
  if e.isAxiosError then
    match e.response with
    | some r =>
      .sessionError
        (r.statusText ++ " (" ++ toString r.status ++ "): " ++ removeEnclosingDQuotes r.data)
        r.config
    | none => .typeError "Cannot read properties of undefined"
  else e

/-- Outcome of the underlying `axios(...)` call: a successful response body,
or a thrown error. -/
inductive AxiosOutcome where
  | success (data : String)
  | failure (err : ThrownError)
deriving DecidableEq, Repr

/-- `SecretStoreSessionClient._send`, as a function of the transport
outcome: on success return `response.data`, on failure run the catch
block and reject with the resulting error. -/
def sendOutcome : AxiosOutcome → Except ThrownError String
  | .success d => .ok d
  | .failure e => .error (handleSendError e)

/-- The state held by a constructed `SecretStoreSessionClient`: its base
`url` (the request config is carried separately by `AxiosRequestConfig`
and not needed for the claims). -/
structure SecretStoreSessionClient where
  url : String
deriving DecidableEq, Repr

/-- `ssEndpointUrl.endsWith('/') ? ssEndpointUrl.slice(0, -1) : ssEndpointUrl`
on the character list of the URL. -/
def stripTrailingSlash (l : List Char) : List Char :=
  if l.getLast? = some '/' then l.dropLast else l

/-- The `SecretStoreSessionClient` constructor (`lib/client/session.ts`,
lines 37-43): throw a plain `Error` when the URL argument is falsy
(`undefined`, modelled `none`, or the empty string), otherwise store the
URL with a single trailing `/` removed if present. -/
def mkSessionClient (ssEndpointUrl : Option String) :
    Except ThrownError SecretStoreSessionClient :=
  match ssEndpointUrl with
  | none => .error (.jsError "Secret Store endpoint URL was not given")
  | some u =>
    if u = "" then .error (.jsError "Secret Store endpoint URL was not given")
    else .ok ⟨⟨stripTrailingSlash u.data⟩⟩

/-- An outgoing HTTP request of the session client: axios `method` string,
full `url`, and optional `data` body. -/
structure HttpRequest where
  method : String
  url : String
  body : Option String
deriving DecidableEq, Repr

/-- URL and method built by `generateServerKey`
(`lib/client/session.ts`, lines 80-83). -/
def generateServerKeyRequest (c : SecretStoreSessionClient)
    (serverKeyID signedServerKeyID : String) (threshold : Nat) : HttpRequest :=
  ⟨"post",
    c.url ++ "/shadow/" ++ remove0x serverKeyID ++ "/" ++ remove0x signedServerKeyID
      ++ "/" ++ toString threshold,
    none⟩

/-- Response pipeline of `generateServerKey`: the body returned by `_send`
is passed through `removeEnclosingDQuotes`; a rejection propagates. -/
def generateServerKeyRun (outcome : AxiosOutcome) : Except ThrownError String :=
  (sendOutcome outcome).map removeEnclosingDQuotes

/-- `ExternallyEncryptedDocumentKey` from `lib/client/rpc.ts` (interface
fields `common_point`, `encrypted_key`, `encrypted_point`).  The fields are
modelled as `Option String` because at the JavaScript level a caller can
pass an object in which some of them are `undefined` — the declared types
are not checked at runtime. -/
structure ExternallyEncryptedDocumentKey where
  common_point : Option String
  encrypted_key : Option String
  encrypted_point : Option String
deriving DecidableEq, Repr

/-- The union-typed third argument of `storeDocumentKey`: a common-point
string or a structured key object. -/
inductive CommonPointOrKey where
  | str (s : String)
  | key (k : ExternallyEncryptedDocumentKey)
deriving DecidableEq, Repr

/-- JavaScript string interpolation of a possibly-`undefined` string. -/
def jsShowOptStr : Option String → String
  | none => "undefined"
  | some s => s

/-- `SecretStoreSessionClient.storeDocumentKey` (`lib/client/session.ts`,
lines 150-174), returning the request it passes to `_send`, or the
validation error thrown before any request is issued.  The first guard
`if (!commonPointOrKey)` fires on `undefined` and on the empty string (an
object is always truthy); the string branch then requires a truthy
`encryptedPoint`, interpolating its value into the error message. -/
def storeDocumentKeyRequest (c : SecretStoreSessionClient)
    (serverKeyID signedServerKeyID : String)
    (commonPointOrKey : Option CommonPointOrKey) (encryptedPoint : Option String) :
    Except ThrownError HttpRequest :=
  match commonPointOrKey with
  | none => .error (.jsError "No document key parameters were given")
  | some (.str s) =>
    if s = "" then .error (.jsError "No document key parameters were given")
    else
      match encryptedPoint with
      | none => .error (.jsError "Common point was given but no encrypted point (undefined)")
      | some e =>
        if e = "" then .error (.jsError "Common point was given but no encrypted point ()")
        else
          .ok ⟨"post",
            c.url ++ "/shadow/" ++ remove0x serverKeyID ++ "/"
              ++ remove0x signedServerKeyID ++ "/" ++ remove0x s ++ "/" ++ remove0x e,
            none⟩
  | some (.key k) =>
    .ok ⟨"post",
      c.url ++ "/shadow/" ++ remove0x serverKeyID ++ "/" ++ remove0x signedServerKeyID
        ++ "/" ++ remove0xOpt k.common_point ++ "/" ++ remove0xOpt k.encrypted_point,
      none⟩

/-- URL and method built by `signSchnorr` (`lib/client/session.ts`,
lines 253-256): `messageHash` is appended as supplied, without `remove0x`. -/
def signSchnorrRequest (c : SecretStoreSessionClient)
    (serverKeyID signedServerKeyID messageHash : String) : HttpRequest :=
  ⟨"get",
    c.url ++ "/schnorr/" ++ remove0x serverKeyID ++ "/" ++ remove0x signedServerKeyID
      ++ "/" ++ messageHash,
    none⟩

/-- URL and method built by `signEcdsa` (`lib/client/session.ts`,
lines 268-271): `messageHash` is appended as supplied, without `remove0x`. -/
def signEcdsaRequest (c : SecretStoreSessionClient)
    (serverKeyID signedServerKeyID messageHash : String) : HttpRequest :=
  ⟨"get",
    c.url ++ "/ecdsa/" ++ remove0x serverKeyID ++ "/" ++ remove0x signedServerKeyID
      ++ "/" ++ messageHash,
    none⟩

/-- `DocumentKeyPortions` from `lib/client/session.ts` (fields
`common_point`, `decrypted_secret`, `decrypt_shadows`). -/
structure DocumentKeyPortions where
  common_point : String
  decrypted_secret : String
  decrypt_shadows : List String
deriving DecidableEq, Repr

/-- A parameter of a JSON-RPC call: a string or an array of strings. -/
inductive RpcParam where
  | str (s : String)
  | list (l : List String)
deriving DecidableEq, Repr

/-- An outgoing JSON-RPC request: method name and ordered parameter list. -/
structure RpcRequest where
  method : String
  params : List RpcParam
deriving DecidableEq, Repr

/-- The union-typed fourth argument of the RPC client's `shadowDecrypt`:
a decrypted-secret string or a `DocumentKeyPortions` object. -/
inductive SecretOrPortions where
  | str (s : String)
  | portions (p : DocumentKeyPortions)
deriving DecidableEq, Repr

/-- JavaScript falsiness of a possibly-`undefined` string: `!x` is `true`
exactly on `undefined` and the empty string. -/
def jsFalsyStr : Option String → Bool
  | none => true
  | some s => s = ""

/-- JavaScript string interpolation of a possibly-`undefined` array of
strings (`[a, b].toString() === "a,b"`). -/
def jsShowOptShadows : Option (List String) → String
  | none => "undefined"
  | some l => String.intercalate "," l

/-- JavaScript falsiness of `decryptShadows` combined with the length
check: `!decryptShadows || decryptShadows.length === 0`. -/
def shadowsFalsy : Option (List String) → Bool
  | none => true
  | some l => l.isEmpty

/-- `SecretStoreRpcApiClient.shadowDecrypt` (`lib/client/rpc.ts`,
lines 191-230), returning the JSON-RPC request it passes to `_send`, or the
validation error thrown before any request is issued.  The first guard
`if (!decryptedSecretOrDocumentKeyPortions)` fires on `undefined` and on
the empty string (an object is always truthy); the string branch then
requires a truthy `commonPoint` and a non-empty `decryptShadows`,
interpolating all three positional values into the error message.  The
object branch performs no per-field validation. -/
def shadowDecryptRequest (account pwd encryptedDocument : String)
    (decryptedSecretOrPortions : Option SecretOrPortions)
    (commonPoint : Option String) (decryptShadows : Option (List String)) :
    Except ThrownError RpcRequest :=
  match decryptedSecretOrPortions with
  | none => .error (.jsError "Document key portions were not supplied")
  | some (.str s) =>
    if s = "" then .error (.jsError "Document key portions were not supplied")
    else
      if jsFalsyStr commonPoint || shadowsFalsy decryptShadows then
        .error (.jsError ("Not enough document key portions were supplied ("
          ++ s ++ "," ++ jsShowOptStr commonPoint ++ ","
          ++ jsShowOptShadows decryptShadows ++ ")"))
      else
        .ok ⟨"secretstore_shadowDecrypt",
          [.str account, .str pwd, .str (ensure0x s),
            .str (ensure0x (jsShowOptStr commonPoint)),
            .list (decryptShadows.getD []), .str (ensure0x encryptedDocument)]⟩
  | some (.portions p) =>
    .ok ⟨"secretstore_shadowDecrypt",
      [.str account, .str pwd, .str (ensure0x p.decrypted_secret),
        .str (ensure0x p.common_point), .list p.decrypt_shadows,
        .str (ensure0x encryptedDocument)]⟩

end SecretStore

namespace SecretStore

theorem remove0xAux_cons2 (l : List Char) : remove0xAux ('0' :: 'x' :: l) = l := by
  simp [remove0xAux, startsWith0x]

theorem remove0x_ensure0x_aux (l : List Char) :
    remove0xAux (ensure0xAux l) = remove0xAux l := by
  unfold ensure0xAux
  by_cases h : startsWith0x l
  · simp [h]
  · simp only [h, if_false, Bool.false_eq_true]
    rw [remove0xAux_cons2]
    simp [remove0xAux, h]

theorem stringExt (a b : String) (h : a.data = b.data) : a = b := by
  cases a
  cases b
  exact congrArg String.mk h

theorem getLastHuh_append_single (l : List Char) (a : Char) :
    (l ++ [a]).getLast? = some a := by
  simp

theorem dropLast_append_single (l : List Char) (a : Char) :
    (l ++ [a]).dropLast = l := by
  simp

theorem quotedStringInj (a b : String)
    (h : ("\"" ++ a ++ "\"" : String) = "\"" ++ b ++ "\"") : a = b := by
  have hd : '"' :: (a.data ++ ['"']) = '"' :: (b.data ++ ['"']) := congrArg String.data h
  have h3 : a.data ++ ['"'] = b.data ++ ['"'] := by injection hd
  have h4 := congrArg List.dropLast h3
  rw [dropLast_append_single, dropLast_append_single] at h4
  exact stringExt _ _ h4

theorem dqInner_eq_some (l : List Char) : ∀ m : List Char,
    dqInner l = some m ↔ l = m ++ ['"'] ∧ ∀ c ∈ m, isJsLineTerminator c = false := by
  induction l with
  | nil =>
    intro m
    constructor
    · intro h
      exact absurd h (by simp [dqInner])
    · rintro ⟨h, -⟩
      exact absurd h (by simp)
  | cons c t ih =>
    intro m
    cases t with
    | nil =>
      by_cases hc : c = '"'
      · subst hc
        simp only [dqInner, if_pos rfl]
        constructor
        · intro h
          have hm : m = [] := (Option.some.inj h).symm
          subst hm
          exact ⟨rfl, by intro x hx; exact absurd hx (List.not_mem_nil x)⟩
        · rintro ⟨h, -⟩
          have hm : m = [] := by
            cases m with
            | nil => rfl
            | cons a s =>
              have := congrArg List.length h
              simp at this
          subst hm
          rfl
      · simp only [dqInner, if_neg hc]
        constructor
        · intro h
          exact absurd h (by simp)
        · rintro ⟨h, -⟩
          cases m with
          | nil =>
            simp at h
            exact absurd h hc
          | cons a s =>
            have := congrArg List.length h
            simp at this
    | cons c1 t1 =>
      by_cases hterm : isJsLineTerminator c = true
      · simp only [dqInner, if_pos hterm]
        constructor
        · intro h
          exact absurd h (by simp)
        · rintro ⟨h, hall⟩
          cases m with
          | nil =>
            have := congrArg List.length h
            simp at this
          | cons a s =>
            have hca : c = a := by injection h
            have hfa : isJsLineTerminator a = false := hall a (List.mem_cons_self a s)
            rw [← hca, hterm] at hfa
            exact Bool.noConfusion hfa
      · simp only [dqInner, if_neg hterm, Option.map_eq_some']
        constructor
        · rintro ⟨m', hm', rfl⟩
          obtain ⟨hshape, hall⟩ := (ih m').mp hm'
          constructor
          · rw [hshape]
            rfl
          · intro x hx
            rcases List.mem_cons.mp hx with rfl | hx2
            · rw [Bool.not_eq_true] at hterm
              exact hterm
            · exact hall x hx2
        · rintro ⟨hshape, hall⟩
          cases m with
          | nil =>
            have := congrArg List.length hshape
            simp at this
          | cons a s =>
            have h1 : c = a := by injection hshape
            have h2 : c1 :: t1 = s ++ ['"'] := by injection hshape
            subst h1
            refine ⟨s, (ih s).mpr ⟨h2, ?_⟩, rfl⟩
            intro x hx
            exact hall x (List.mem_cons_of_mem _ hx)

theorem dqBody_eq_some (l m : List Char) :
    dqBody l = some m ↔ l = '"' :: m ++ ['"'] ∧ ∀ c ∈ m, isJsLineTerminator c = false := by
  cases l with
  | nil =>
    have h0 : dqBody [] = none := rfl
    rw [h0]
    constructor
    · intro h
      exact absurd h (by simp)
    · rintro ⟨h, -⟩
      exact absurd h (by simp)
  | cons c0 t =>
    cases t with
    | nil =>
      have h0 : dqBody [c0] = none := rfl
      rw [h0]
      constructor
      · intro h
        exact absurd h (by simp)
      · rintro ⟨h, -⟩
        have := congrArg List.length h
        simp at this
    | cons c1 rest =>
      have h0 : dqBody (c0 :: c1 :: rest) = if c0 = '"' then dqInner (c1 :: rest) else none := rfl
      rw [h0]
      by_cases hc : c0 = '"'
      · subst hc
        rw [if_pos rfl, dqInner_eq_some]
        constructor
        · rintro ⟨h, hall⟩
          exact ⟨congrArg (List.cons '"') h, hall⟩
        · rintro ⟨h, hall⟩
          have h2 : c1 :: rest = m ++ ['"'] := by injection h
          exact ⟨h2, hall⟩
      · rw [if_neg hc]
        constructor
        · intro h
          exact absurd h (by simp)
        · rintro ⟨h, -⟩
          have h1 : c0 = '"' := by injection h
          exact absurd h1 hc

/-- C6: for every string `x`, `remove0x (ensure0x x) = remove0x x` — adding
the `0x` prefix before stripping never changes the stripped result. -/
theorem remove0x_ensure0x (x : String) : remove0x (ensure0x x) = remove0x x :=
  congrArg String.mk (remove0x_ensure0x_aux x.data)

/-- C5 (amended): `removeEnclosingDQuotes s` returns the inner body exactly
when `s` is `"<body>"` — one leading and one trailing double quote anchored
at both ends — AND the body contains no JavaScript line terminator (the
regexp atom `.` does not match those); otherwise `s` is returned
unchanged. -/
theorem removeEnclosingDQuotes_spec (s : String) :
    (∃ b : String, s = "\"" ++ b ++ "\"" ∧ (∀ c ∈ b.data, isJsLineTerminator c = false)
        ∧ removeEnclosingDQuotes s = b)
    ∨ (removeEnclosingDQuotes s = s
        ∧ ∀ b : String, s = "\"" ++ b ++ "\"" → ∃ c ∈ b.data, isJsLineTerminator c = true) := by
  cases hd : dqBody s.data with
  | some m =>
    left
    obtain ⟨hshape, hall⟩ := (dqBody_eq_some s.data m).mp hd
    refine ⟨⟨m⟩, ?_, hall, ?_⟩
    · exact stringExt _ _ (hshape.trans (by rfl))
    · unfold removeEnclosingDQuotes
      rw [hd]
  | none =>
    right
    constructor
    · unfold removeEnclosingDQuotes
      rw [hd]
    · intro b hb
      by_contra hnone
      push_neg at hnone
      have hall : ∀ c ∈ b.data, isJsLineTerminator c = false := by
        intro c hc
        have h1 := hnone c hc
        simp only [ne_eq, Bool.not_eq_true] at h1
        exact h1
      have hsome : dqBody s.data = some b.data :=
        (dqBody_eq_some s.data b.data).mpr ⟨by rw [hb]; rfl, hall⟩
      rw [hd] at hsome
      exact Option.noConfusion hsome

/-- C5 witness: the three spec examples, derived from the characterization
theorem and by evaluation. -/
theorem removeEnclosingDQuotes_spec_witness :
    removeEnclosingDQuotes "\"abc\"" = "abc"
    ∧ removeEnclosingDQuotes "abc" = "abc"
    ∧ removeEnclosingDQuotes "\"a\"b\"" = "a\"b" := by
  refine ⟨?_, by decide, by decide⟩
  rcases removeEnclosingDQuotes_spec "\"abc\"" with ⟨b, hb, -, hres⟩ | ⟨-, hforall⟩
  · have hb2 : ("\"" ++ "abc" ++ "\"" : String) = "\"" ++ b ++ "\"" := by
      rw [show ("\"" ++ "abc" ++ "\"" : String) = "\"abc\"" from by decide]
      exact hb
    rw [hres, ← quotedStringInj "abc" b hb2]
  · exact absurd (hforall "abc" (by decide)) (by decide)

/-- C5 counterexample: `"\"\n\""` is wrapped by a leading and a trailing
double quote anchored at both ends, yet the regexp does not strip them
(the body contains a line feed, which `.` does not match), contradicting
the claim that any such string maps to its inner body. -/
theorem removeEnclosingDQuotes_newline_counterexample :
    removeEnclosingDQuotes ("\"" ++ "\n" ++ "\"") = "\"" ++ "\n" ++ "\""
    ∧ ("\"" ++ "\n" ++ "\"" : String) ≠ "\n" := by
  exact ⟨by decide, by decide⟩

/-- C9: `signSchnorr` and `signEcdsa` build
`{base}/schnorr/{remove0x id}/{remove0x sig}/{messageHash}` and
`{base}/ecdsa/{remove0x id}/{remove0x sig}/{messageHash}` with the message
hash embedded exactly as supplied — in particular a `0x` prefix on the
hash survives into the URL even though `remove0x` would have removed it. -/
theorem sign_messageHash_passthrough (c : SecretStoreSessionClient)
    (serverKeyID signedServerKeyID messageHash : String) :
    signSchnorrRequest c serverKeyID signedServerKeyID messageHash
      = ⟨"get", c.url ++ "/schnorr/" ++ remove0x serverKeyID ++ "/"
          ++ remove0x signedServerKeyID ++ "/" ++ messageHash, none⟩
    ∧ signEcdsaRequest c serverKeyID signedServerKeyID messageHash
      = ⟨"get", c.url ++ "/ecdsa/" ++ remove0x serverKeyID ++ "/"
          ++ remove0x signedServerKeyID ++ "/" ++ messageHash, none⟩
    ∧ remove0x ("0x" ++ messageHash) = messageHash
    ∧ signSchnorrRequest c serverKeyID signedServerKeyID ("0x" ++ messageHash)
      = ⟨"get", c.url ++ "/schnorr/" ++ remove0x serverKeyID ++ "/"
          ++ remove0x signedServerKeyID ++ "/" ++ ("0x" ++ messageHash), none⟩ :=
  ⟨rfl, rfl, congrArg String.mk (remove0xAux_cons2 messageHash.data), rfl⟩

/-- C1 (amended): for nonempty `cp` and `ep`, `storeDocumentKey` called
with the structured object `{common_point: cp, encrypted_point: ep,
encrypted_key: k}` and called with the positional arguments `cp`, `ep`
build the identical outgoing request: POST to
`{base}/shadow/{remove0x id}/{remove0x sig}/{remove0x cp}/{remove0x ep}`
with no body. -/
theorem storeDocumentKey_object_positional_agree
    (c : SecretStoreSessionClient) (serverKeyID signedServerKeyID cp ep k : String)
    (hcp : cp ≠ "") (hep : ep ≠ "") :
    storeDocumentKeyRequest c serverKeyID signedServerKeyID
        (some (.key ⟨some cp, some k, some ep⟩)) none
      = storeDocumentKeyRequest c serverKeyID signedServerKeyID (some (.str cp)) (some ep)
    ∧ storeDocumentKeyRequest c serverKeyID signedServerKeyID (some (.str cp)) (some ep)
      = .ok ⟨"post", c.url ++ "/shadow/" ++ remove0x serverKeyID ++ "/"
          ++ remove0x signedServerKeyID ++ "/" ++ remove0x cp ++ "/" ++ remove0x ep,
          none⟩ := by
  constructor
  · simp [storeDocumentKeyRequest, hcp, hep, remove0xOpt]
  · simp [storeDocumentKeyRequest, hcp, hep]

/-- C1 witness: the two calling forms agree on a concrete input. -/
theorem storeDocumentKey_object_positional_agree_witness :
    storeDocumentKeyRequest ⟨"http://host:8090"⟩ "0xid" "0xsig"
        (some (.key ⟨some "0xc", some "0xk", some "0xe"⟩)) none
      = storeDocumentKeyRequest ⟨"http://host:8090"⟩ "0xid" "0xsig"
          (some (.str "0xc")) (some "0xe")
    ∧ storeDocumentKeyRequest ⟨"http://host:8090"⟩ "0xid" "0xsig"
        (some (.str "0xc")) (some "0xe")
      = .ok ⟨"post", "http://host:8090" ++ "/shadow/" ++ remove0x "0xid" ++ "/"
          ++ remove0x "0xsig" ++ "/" ++ remove0x "0xc" ++ "/" ++ remove0x "0xe",
          none⟩ :=
  storeDocumentKey_object_positional_agree ⟨"http://host:8090"⟩ "0xid" "0xsig"
    "0xc" "0xe" "0xk" (by decide) (by decide)

/-- C1 counterexample: with `cp = ""` and `ep = ""` the positional form
throws the validation error while the object form builds (and would send)
a POST request with empty path segments, so the two forms do not build an
identical wire request for every pair of strings. -/
theorem storeDocumentKey_object_positional_disagree :
    storeDocumentKeyRequest ⟨"http://h"⟩ "i" "s"
        (some (.key ⟨some "", some "k", some ""⟩)) none
      ≠ storeDocumentKeyRequest ⟨"http://h"⟩ "i" "s" (some (.str "")) (some "")
    ∧ storeDocumentKeyRequest ⟨"http://h"⟩ "i" "s" (some (.str "")) (some "")
      = .error (.jsError "No document key parameters were given")
    ∧ storeDocumentKeyRequest ⟨"http://h"⟩ "i" "s"
        (some (.key ⟨some "", some "k", some ""⟩)) none
      = .ok ⟨"post", "http://h/shadow/i/s//", none⟩ := by
  exact ⟨by decide, by decide, by decide⟩

/-- C10: the structured-object form of `storeDocumentKey` is not validated
field by field — for every object argument, whatever its fields, a POST
request is built (never a validation error), with `remove0x` mapping a
missing/`undefined`/empty `common_point` or `encrypted_point` to the empty
string, which appears as an empty path segment in the URL. -/
theorem storeDocumentKey_object_unvalidated
    (c : SecretStoreSessionClient) (serverKeyID signedServerKeyID : String)
    (k : ExternallyEncryptedDocumentKey) (ep : Option String) :
    storeDocumentKeyRequest c serverKeyID signedServerKeyID (some (.key k)) ep
      = .ok ⟨"post", c.url ++ "/shadow/" ++ remove0x serverKeyID ++ "/"
          ++ remove0x signedServerKeyID ++ "/" ++ remove0xOpt k.common_point ++ "/"
          ++ remove0xOpt k.encrypted_point, none⟩
    ∧ (k.common_point = none ∨ k.common_point = some "" → remove0xOpt k.common_point = "")
    ∧ (k.encrypted_point = none ∨ k.encrypted_point = some ""
        → remove0xOpt k.encrypted_point = "") := by
  refine ⟨rfl, ?_, ?_⟩
  · rintro (h | h) <;> rw [h] <;> rfl
  · rintro (h | h) <;> rw [h] <;> rfl

/-- C10 witness: a concrete object with `common_point` undefined and
`encrypted_point` empty is still mapped to a POST with empty segments. -/
theorem storeDocumentKey_object_unvalidated_witness :
    storeDocumentKeyRequest ⟨"http://h"⟩ "i" "s"
        (some (.key ⟨none, some "k", some ""⟩)) none
      = .ok ⟨"post", "http://h/shadow/i/s//", none⟩
    ∧ remove0xOpt (none : Option String) = ""
    ∧ remove0xOpt (some "") = "" := by
  obtain ⟨h1, h2, h3⟩ := storeDocumentKey_object_unvalidated ⟨"http://h"⟩ "i" "s"
    ⟨none, some "k", some ""⟩ none
  refine ⟨?_, h2 (Or.inl rfl), h3 (Or.inr rfl)⟩
  rw [h1]
  decide

/-- C2 (amended): every absent or incomplete multi-part-key call fails
synchronously with a local validation error — the result is an error, so
the request builder never reaches the transport — with the messages the
code actually throws: `storeDocumentKey` with a falsy third argument
throws "No document key parameters were given", with a string common point
but falsy encrypted point "Common point was given but no encrypted point
(<value>)"; `shadowDecrypt` with a falsy fourth argument throws "Document
key portions were not supplied", and with a string secret but falsy common
point or missing/empty shadows "Not enough document key portions were
supplied (<secret>,<commonPoint>,<shadows>)". -/
theorem multiPart_validation (c : SecretStoreSessionClient) :
    (∀ id sig ep, storeDocumentKeyRequest c id sig none ep
      = .error (.jsError "No document key parameters were given"))
    ∧ (∀ id sig ep, storeDocumentKeyRequest c id sig (some (.str "")) ep
      = .error (.jsError "No document key parameters were given"))
    ∧ (∀ id sig s ep, s ≠ "" → jsFalsyStr ep = true →
        storeDocumentKeyRequest c id sig (some (.str s)) ep
          = .error (.jsError ("Common point was given but no encrypted point ("
              ++ jsShowOptStr ep ++ ")")))
    ∧ (∀ a p d cp ds, shadowDecryptRequest a p d none cp ds
      = .error (.jsError "Document key portions were not supplied"))
    ∧ (∀ a p d cp ds, shadowDecryptRequest a p d (some (.str "")) cp ds
      = .error (.jsError "Document key portions were not supplied"))
    ∧ (∀ a p d s cp ds, s ≠ "" → (jsFalsyStr cp || shadowsFalsy ds) = true →
        shadowDecryptRequest a p d (some (.str s)) cp ds
          = .error (.jsError ("Not enough document key portions were supplied ("
              ++ s ++ "," ++ jsShowOptStr cp ++ "," ++ jsShowOptShadows ds ++ ")"))) := by
  refine ⟨fun id sig ep => rfl, fun id sig ep => by simp [storeDocumentKeyRequest],
    ?_, fun a p d cp ds => rfl, fun a p d cp ds => by simp [shadowDecryptRequest], ?_⟩
  · intro id sig s ep hs hep
    cases ep with
    | none => simp [storeDocumentKeyRequest, hs, jsShowOptStr]
    | some e =>
      have he : e = "" := by simpa [jsFalsyStr] using hep
      subst he
      simp [storeDocumentKeyRequest, hs, jsShowOptStr]
  · intro a p d s cp ds hs hbad
    simp only [shadowDecryptRequest, if_neg hs, if_pos hbad]

/-- C2 witness: each validation branch fires on a concrete input. -/
theorem multiPart_validation_witness :
    storeDocumentKeyRequest ⟨"http://h"⟩ "i" "s" none (some "pt")
      = .error (.jsError "No document key parameters were given")
    ∧ storeDocumentKeyRequest ⟨"http://h"⟩ "i" "s" (some (.str "c")) none
      = .error (.jsError ("Common point was given but no encrypted point ("
          ++ jsShowOptStr none ++ ")"))
    ∧ shadowDecryptRequest "a" "p" "d" none none none
      = .error (.jsError "Document key portions were not supplied")
    ∧ shadowDecryptRequest "a" "p" "d" (some (.str "sec")) (some "cp") (some [])
      = .error (.jsError ("Not enough document key portions were supplied ("
          ++ "sec" ++ "," ++ jsShowOptStr (some "cp") ++ ","
          ++ jsShowOptShadows (some []) ++ ")")) := by
  obtain ⟨h1, h2, h3, h4, h5, h6⟩ := multiPart_validation ⟨"http://h"⟩
  exact ⟨h1 "i" "s" (some "pt"), h3 "i" "s" "c" none (by decide) (by decide),
    h4 "a" "p" "d" none none,
    h6 "a" "p" "d" "sec" (some "cp") (some []) (by decide) (by decide)⟩

/-- C2 counterexample: `shadowDecrypt` with an absent fourth argument
throws "Document key portions were not supplied", a message equal to
neither of the two messages named by the claim. -/
theorem multiPart_validation_message_counterexample :
    shadowDecryptRequest "a" "p" "d" none none none
      = .error (.jsError "Document key portions were not supplied")
    ∧ "Document key portions were not supplied"
      ≠ "Not enough document key portions were supplied"
    ∧ "Document key portions were not supplied"
      ≠ "No document key parameters were given" :=
  ⟨rfl, by decide, by decide⟩

/-- C8 (amended): for every `DocumentKeyPortions` object with nonempty
`decrypted_secret`, nonempty `common_point` and nonempty
`decrypt_shadows`, the RPC `shadowDecrypt` called with the object and
called with its unpacked fields sends the same method
`secretstore_shadowDecrypt` with element-wise equal parameter arrays
`[account, pwd, ensure0x(decrypted_secret), ensure0x(common_point),
decrypt_shadows, ensure0x(encryptedDocument)]`. -/
theorem shadowDecrypt_object_positional_agree (a p d : String)
    (portions : DocumentKeyPortions)
    (h1 : portions.decrypted_secret ≠ "") (h2 : portions.common_point ≠ "")
    (h3 : portions.decrypt_shadows ≠ []) :
    shadowDecryptRequest a p d (some (.portions portions)) none none
      = shadowDecryptRequest a p d (some (.str portions.decrypted_secret))
          (some portions.common_point) (some portions.decrypt_shadows)
    ∧ shadowDecryptRequest a p d (some (.portions portions)) none none
      = .ok ⟨"secretstore_shadowDecrypt",
          [.str a, .str p, .str (ensure0x portions.decrypted_secret),
            .str (ensure0x portions.common_point), .list portions.decrypt_shadows,
            .str (ensure0x d)]⟩ := by
  have hobj : shadowDecryptRequest a p d (some (.portions portions)) none none
      = .ok ⟨"secretstore_shadowDecrypt",
          [.str a, .str p, .str (ensure0x portions.decrypted_secret),
            .str (ensure0x portions.common_point), .list portions.decrypt_shadows,
            .str (ensure0x d)]⟩ := rfl
  refine ⟨?_, hobj⟩
  rw [hobj]
  simp [shadowDecryptRequest, h1, h2, h3, jsFalsyStr, shadowsFalsy, jsShowOptStr,
    List.isEmpty_iff]

/-- C8 witness: the two calling forms agree on a concrete portions
object. -/
theorem shadowDecrypt_object_positional_agree_witness :
    shadowDecryptRequest "0xacc" "pwd" "0xdoc"
        (some (.portions ⟨"0xcp", "0xsec", ["0xs1", "0xs2"]⟩)) none none
      = shadowDecryptRequest "0xacc" "pwd" "0xdoc" (some (.str "0xsec"))
          (some "0xcp") (some ["0xs1", "0xs2"])
    ∧ shadowDecryptRequest "0xacc" "pwd" "0xdoc"
        (some (.portions ⟨"0xcp", "0xsec", ["0xs1", "0xs2"]⟩)) none none
      = .ok ⟨"secretstore_shadowDecrypt",
          [.str "0xacc", .str "pwd", .str (ensure0x "0xsec"), .str (ensure0x "0xcp"),
            .list ["0xs1", "0xs2"], .str (ensure0x "0xdoc")]⟩ :=
  shadowDecrypt_object_positional_agree "0xacc" "pwd" "0xdoc"
    ⟨"0xcp", "0xsec", ["0xs1", "0xs2"]⟩ (by decide) (by decide) (by decide)

/-- C8 counterexample: with `decrypted_secret = ""` the positional form
throws the validation error while the object form sends the RPC request
(with `ensure0x("") = "0x"`), so the two forms do not produce element-wise
equal parameter arrays for every portions object. -/
theorem shadowDecrypt_object_positional_disagree :
    shadowDecryptRequest "a" "p" "d" (some (.portions ⟨"c", "", ["s"]⟩)) none none
      ≠ shadowDecryptRequest "a" "p" "d" (some (.str "")) (some "c") (some ["s"])
    ∧ shadowDecryptRequest "a" "p" "d" (some (.str "")) (some "c") (some ["s"])
      = .error (.jsError "Document key portions were not supplied")
    ∧ shadowDecryptRequest "a" "p" "d" (some (.portions ⟨"c", "", ["s"]⟩)) none none
      = .ok ⟨"secretstore_shadowDecrypt",
          [.str "a", .str "p", .str "0x", .str "0xc", .list ["s"], .str "0xd"]⟩ :=
  ⟨by decide, by decide, by decide⟩

/-- C3: when the transport reports non-success with a response carrying
status, statusText, body and config, `_send` (and hence every session
operation, here `generateServerKey`) rejects with a
`SecretStoreSessionError` whose message is exactly
`"<statusText> (<status>): <body with enclosing double quotes removed>"`
and whose metadata is the failing request's configuration; in particular a
500 "Internal Server Error" with body `"\"boom\""` gives
`"Internal Server Error (500): boom"`. -/
theorem sessionError_format (r : AxiosResponse) :
    sendOutcome (.failure (.axiosError (some r)))
      = .error (.sessionError (r.statusText ++ " (" ++ toString r.status ++ "): "
          ++ removeEnclosingDQuotes r.data) r.config)
    ∧ generateServerKeyRun (.failure (.axiosError (some r)))
      = .error (.sessionError (r.statusText ++ " (" ++ toString r.status ++ "): "
          ++ removeEnclosingDQuotes r.data) r.config)
    ∧ ∀ cfg : AxiosRequestConfig,
        generateServerKeyRun
            (.failure (.axiosError (some ⟨500, "Internal Server Error", "\"boom\"", cfg⟩)))
          = .error (.sessionError "Internal Server Error (500): boom" cfg) := by
  refine ⟨rfl, rfl, fun cfg => ?_⟩
  have hs : "Internal Server Error" ++ " (" ++ toString (500 : Nat) ++ "): "
      ++ removeEnclosingDQuotes "\"boom\"" = "Internal Server Error (500): boom" := by
    decide
  show Except.error (ThrownError.sessionError ("Internal Server Error" ++ " ("
      ++ toString (500 : Nat) ++ "): " ++ removeEnclosingDQuotes "\"boom\"") cfg)
    = Except.error (.sessionError "Internal Server Error (500): boom" cfg)
  rw [hs]

/-- C4 (amended): a caught error whose `isAxiosError` flag is false is
rethrown as-is by `_send`, but an axios-flagged failure that carries no
HTTP response (e.g. DNS failure or connection refused) is not propagated
as-is: reading `statusText` of the missing response raises a `TypeError`
that replaces the original error. -/
theorem transport_error_passthrough :
    (∀ e : ThrownError, e.isAxiosError = false → sendOutcome (.failure e) = .error e)
    ∧ sendOutcome (.failure (.axiosError none))
      = .error (.typeError "Cannot read properties of undefined") := by
  refine ⟨?_, rfl⟩
  intro e he
  simp [sendOutcome, handleSendError, he]

/-- C4 witness: a non-axios transport error propagates unchanged. -/
theorem transport_error_passthrough_witness :
    sendOutcome (.failure (.jsError "getaddrinfo ENOTFOUND"))
      = .error (.jsError "getaddrinfo ENOTFOUND") :=
  transport_error_passthrough.1 (.jsError "getaddrinfo ENOTFOUND") rfl

/-- C4 counterexample: an axios-flagged failure carrying no response — the
shape of a DNS failure or connection refused — is replaced by a
`TypeError` rather than propagated as-is. -/
theorem transport_error_reclassified :
    sendOutcome (.failure (.axiosError none)) ≠ .error (.axiosError none)
    ∧ sendOutcome (.failure (.axiosError none))
      = .error (.typeError "Cannot read properties of undefined") :=
  ⟨by decide, rfl⟩

/-- C7: constructing the session client with `undefined` or `""` fails
synchronously with the configuration error; with a nonempty URL it
succeeds and stores the URL with exactly one trailing `/` stripped when
one is present (`u ++ "/"` is stored as `u`), and unchanged when the URL
does not end in `/` (the last conjunct identifies "ends with a slash"
with the existence of a decomposition `v ++ "/"`). -/
theorem mkSessionClient_spec :
    mkSessionClient none = .error (.jsError "Secret Store endpoint URL was not given")
    ∧ mkSessionClient (some "")
      = .error (.jsError "Secret Store endpoint URL was not given")
    ∧ (∀ v : String, mkSessionClient (some (v ++ "/")) = .ok ⟨v⟩)
    ∧ (∀ u : String, u ≠ "" → u.data.getLast? ≠ some '/'
        → mkSessionClient (some u) = .ok ⟨u⟩)
    ∧ (∀ u : String, u.data.getLast? = some '/' ↔ ∃ v : String, u = v ++ "/") := by
  refine ⟨rfl, rfl, ?_, ?_, ?_⟩
  · intro v
    have hne : v ++ "/" ≠ "" := by
      intro h
      have h2 : v.data ++ ['/'] = [] := congrArg String.data h
      simp at h2
    rw [mkSessionClient, if_neg hne]
    have hstrip : stripTrailingSlash (v ++ "/").data = v.data := by
      show stripTrailingSlash (v.data ++ ['/']) = v.data
      rw [stripTrailingSlash, if_pos (getLastHuh_append_single v.data '/')]
      exact dropLast_append_single v.data '/'
    rw [hstrip]
  · intro u hne hlast
    rw [mkSessionClient, if_neg hne, stripTrailingSlash, if_neg hlast]
  · intro u
    constructor
    · intro h
      rcases List.eq_nil_or_concat u.data with hn | ⟨l, a, hl⟩
      · rw [hn] at h
        exact absurd h (by simp)
      · rw [List.concat_eq_append] at hl
        rw [hl, getLastHuh_append_single] at h
        have ha : a = '/' := Option.some.inj h
        refine ⟨⟨l⟩, stringExt _ _ ?_⟩
        rw [hl, ha]
        rfl
    · rintro ⟨v, rfl⟩
      show (v.data ++ ['/']).getLast? = some '/'
      exact getLastHuh_append_single v.data '/'

/-- C7 witness: the configuration error and the trailing-slash stripping
on concrete URLs. -/
theorem mkSessionClient_spec_witness :
    mkSessionClient (some "http://host:8090/") = .ok ⟨"http://host:8090"⟩
    ∧ mkSessionClient (some "http://host:8090") = .ok ⟨"http://host:8090"⟩
    ∧ mkSessionClient (some "")
      = .error (.jsError "Secret Store endpoint URL was not given") := by
  obtain ⟨h1, h2, h3, h4, h5⟩ := mkSessionClient_spec
  refine ⟨?_, ?_, h2⟩
  · have heq : ("http://host:8090" : String) ++ "/" = "http://host:8090/" := by decide
    rw [← heq]
    exact h3 "http://host:8090"
  · exact h4 "http://host:8090" (by decide) (by decide)

end SecretStore
